import Mathlib

/-!
# Messenger commerce bot: webhook ingestion and support dispatch

A shallow embedding of

* `bin/app.js`: `safeLocale`, the `GET /webhook` and `POST /webhook` route
  handlers, the `express.json` registration and `verifyRequestSignature`;
* `bin/api/core/graph-api.js`: `getUserProfile` over `callUserProfileAPI`;
* `bin/services/support.js`: `Contact.handlePayload`.

JavaScript values are cut down to what the handlers inspect.  Side effects are
recorded as a trace of `Effect`s in program order; a raised exception is a
`JsError` next to the trace.  Collaborators whose code is not part of these
files (`i18n`, `API`, `Survey`, `Client`, `In`, `camelcase`, `Config`) are
parameters.
-/

namespace MessengerBot

/-! ## Values, errors, effects -/

/-- A JavaScript value as far as the handlers look at it: `undefined` (also an
absent property or query parameter), a string, or an array/object whose
content is not inspected (always truthy, never `===` to a string). -/
inductive JsVal where
  | undefined
  | str (s : String)
  | object
  deriving DecidableEq, Repr

/-- JavaScript truthiness: `undefined` and the empty string are falsy. -/
def JsVal.truthy : JsVal → Bool
  | .undefined => false
  | .str s => s != ""
  | .object => true

/-- An environment variable as a value: `undefined` when it is not set. -/
def JsVal.ofEnv : Option String → JsVal
  | none => .undefined
  | some s => .str s

/-- Exceptions the modelled code can raise. -/
inductive JsError where
  | referenceError (name : String)
  | typeError (detail : String)
  | syntaxError (detail : String)
  | error (message : String)
  deriving DecidableEq, Repr

/-- A user profile as returned by the Graph API: a JSON object, kept as its
key/value pairs in property order. -/
abbrev Profile := List (String × JsVal)

/-- The fields of a `Client` instance the modelled code reads. -/
structure Client where
  psid : String
  firstName : JsVal
  locale : JsVal
  deriving DecidableEq, Repr

/-! ## Webhook payloads -/

/-- The `value` object of a page change, by the properties that are read. -/
structure ChangeValue where
  item : JsVal
  post_id : JsVal
  comment_id : JsVal
  deriving DecidableEq, Repr

/-- One element of `entry.changes`; `value = none` is an absent `value`. -/
structure Change where
  field : JsVal
  value : Option ChangeValue
  deriving DecidableEq, Repr

/-- One element of `entry.messaging`: `read` and `delivery` say whether the
event has a property of that name, `sender` is `webhookEvent.sender.id` when
there is a `sender`, `message` and `postback` are the text and the payload the
event carries (not inspected by `app.js`). -/
structure WebhookEvent where
  read : Bool
  delivery : Bool
  sender : Option String
  message : JsVal
  postback : JsVal
  deriving DecidableEq, Repr

/-- One element of `body.entry`; `none` is an absent property. -/
structure Entry where
  changes : Option (List Change)
  messaging : Option (List WebhookEvent)
  deriving DecidableEq, Repr

/-- The parsed request body `req.body`. -/
structure Body where
  object : JsVal
  entry : Option (List Entry)
  deriving DecidableEq, Repr

/-- Observable actions, in program order. -/
inductive Effect where
  /-- Call of `console.log`, by its leading text. -/
  | log (text : String)
  /-- Call `res.status(code).send(body)`. -/
  | send (code : Nat) (body : JsVal)
  /-- Call `res.sendStatus(code)`. -/
  | sendStatus (code : Nat)
  /-- Construction `new Client(psid)`. -/
  | newClient (psid : String)
  /-- The HTTP request of `callUserProfileAPI(psid)` is issued. -/
  | fetchProfile (psid : String)
  /-- The promise of `callUserProfileAPI(psid)` settles. -/
  | fetchSettled (psid : String)
  /-- Call `client.setProfile(userProfile)` on the client of `psid`. -/
  | setProfile (psid : String) (profile : Option Profile)
  /-- A call `i18n.setLocale(locale)` that took effect. -/
  | setLocale (locale : JsVal)
  /-- Call `receiveMessage.handlePrivateReply(type, objectId)`. -/
  | handlePrivateReply (type : String) (objectId : JsVal)
  /-- Construction `new In(client, webhookEvent)` followed by
  `triageMessage()`. -/
  | triageMessage (client : Client) (event : WebhookEvent)
  deriving DecidableEq, Repr

/-! ## Configuration and collaborators -/

/-- One persona of `Config`. -/
structure Persona where
  name : JsVal
  id : JsVal
  deriving DecidableEq, Repr

/-- The fields of `Config` that the modelled code reads. -/
structure Config where
  appSecret : String
  /-- The value of `process.env.VERIFY_TOKEN`, `none` when it is not set. -/
  verifyToken : Option String
  personaBilling : Persona
  personaCare : Persona
  personaOrder : Persona
  personaSales : Persona

/-- The identifiers that `app.js` uses but declares nowhere (neither at module
level nor in an enclosing function): `Receive`, and `client` outside the block
of its `let`.  Such a name is looked up on the global object and reading it
raises a `ReferenceError` when no such global exists. -/
structure Globals where
  /-- Whether a global `Receive` exists. -/
  Receive : Bool
  /-- The global `client`, when one exists. -/
  client : Option Client

/-- The globals as `app.js` leaves them: it defines neither name. -/
def noGlobals : Globals := { Receive := false, client := none }

/-- Collaborators of `app.js` and `graph-api.js` whose code is elsewhere. -/
structure Collab where
  /-- Whether `i18n.setLocale(l)` succeeds (otherwise it raises). -/
  accepts : JsVal → Bool
  /-- The fields of a fresh `new Client(psid)`. -/
  construct : String → Client
  /-- The outcome of `client.setProfile(p)` with `p = none` for `undefined`:
  the client afterwards and the exception it raised, if any. -/
  setProfile : Client → Option Profile → Client × Option JsError
  /-- The `camelcase` package. -/
  camelCase : String → String

/-! ## Request authentication: `verifyRequestSignature` -/

/-- The method `String.prototype.split` with a one-character separator, on
characters. -/
def splitChars (sep : Char) : List Char → List (List Char)
  | [] => [[]]
  | c :: cs =>
    if c = sep then [] :: splitChars sep cs
    else
      match splitChars sep cs with
      | [] => [[c]]
      | h :: t => (c :: h) :: t

/-- The call `s.split(sep)` for a one-character `sep`. -/
def jsSplit (s : String) (sep : Char) : List String :=
  (splitChars sep s.data).map String.mk

/-- The function `verifyRequestSignature(req, res, buf)` of `app.js`: `header` is
`req.headers["x-hub-signature"]`, `hmacHex key data` is
`crypto.createHmac("sha1", key).update(data).digest("hex")`.  The result is the
log output and the exception raised, if any. -/
def verifyRequestSignature (hmacHex : String → String → String) (cfg : Config)
    (header : Option String) (buf : String) : List Effect × Option JsError :=
  match header with
  | none => ([.log "Couldn't validate the signature."], none)
  | some signature =>
    if signature = "" then ([.log "Couldn't validate the signature."], none)
    else
      let elements := jsSplit signature '='
      let signatureHash := elements[1]?
      let expectedHash := hmacHex cfg.appSecret buf
      if signatureHash ≠ some expectedHash then
        ([], some (.error "Couldn't validate the request signature."))
      else ([], none)

/-! ## `GET /webhook` -/

/-- The handler of `app.get("/webhook")`: `mode`, `token` and `challenge` are
`req.query["hub.mode"]`, `req.query["hub.verify_token"]` and
`req.query["hub.challenge"]`. -/
def getWebhook (cfg : Config) (mode token challenge : JsVal) : List Effect :=
  if mode.truthy && token.truthy then
    if mode = .str "subscribe" ∧ token = JsVal.ofEnv cfg.verifyToken then
      [.log "WEBHOOK_VERIFIED", .send 200 challenge]
    else
      [.sendStatus 403]
  else
    []

/-- The HTTP response a trace sends, if any (the first one). -/
def response : List Effect → Option (Nat × Option JsVal)
  | [] => none
  | .send code body :: _ => some (code, some body)
  | .sendStatus code :: _ => some (code, none)
  | _ :: rest => response rest

/-! ## `POST /webhook` -/

/-- The `users` object of `app.js`: its own keys with the sessions stored
under them. -/
abbrev Users := List (String × Client)

/-- The property names every plain object inherits from `Object.prototype`:
the `in` operator also finds these. -/
def objectPrototypeKeys : List String :=
  ["constructor", "__defineGetter__", "__defineSetter__", "hasOwnProperty",
   "__lookupGetter__", "__lookupSetter__", "isPrototypeOf",
   "propertyIsEnumerable", "toString", "valueOf", "__proto__",
   "toLocaleString"]

/-- The test `senderPsid in users`. -/
def inUsers (senderPsid : String) (users : Users) : Bool :=
  (users.map Prod.fst).contains senderPsid || objectPrototypeKeys.contains senderPsid

/-- A promise chain registered on `Core.getUserProfile(senderPsid)` and not yet
run: the client and the event its callbacks close over. -/
structure Pending where
  client : Client
  event : WebhookEvent
  senderPsid : String
  deriving DecidableEq, Repr

/-- What a piece of synchronous code did: its effects in order, the promise
chains it registered, and the exception that ended it, if any. -/
structure Run where
  trace : List Effect
  pending : List Pending
  raised : Option JsError
  deriving DecidableEq, Repr

/-- Normal completion after the effects `t`. -/
def Run.done (t : List Effect) : Run := { trace := t, pending := [], raised := none }

/-- The exception `e` raised after the effects `t`. -/
def Run.throw (t : List Effect) (e : JsError) : Run :=
  { trace := t, pending := [], raised := some e }

/-- The effects `t` followed by the run `r`. -/
def Run.after (t : List Effect) (r : Run) : Run := { r with trace := t ++ r.trace }

/-- A call `i18n.setLocale(l)`. -/
def i18nSetLocale (co : Collab) (l : JsVal) : Run :=
  if co.accepts l then Run.done [.setLocale l]
  else Run.throw [] (.error "i18n.setLocale")

/-- The helper `safeLocale(locale)` of `app.js`.  Its body never reads the
parameter `locale`: it reads `client`, which is neither a parameter nor a
module-level binding, so the name denotes the global `client`; without one the
read raises a `ReferenceError` inside the `try`, and the `catch` runs. -/
def safeLocale (g : Globals) (co : Collab) (_locale : JsVal) : Run :=
  match g.client with
  | none => i18nSetLocale co (.str "en_US")
  | some c =>
    let r := i18nSetLocale co c.locale
    match r.raised with
    | none => r
    | some _ => Run.after r.trace (i18nSetLocale co (.str "en_US"))

/-- The part of the `forEach` callback from `let webhookEvent =
entry.messaging[0]` on (lines 138-182). -/
def triageMessaging (g : Globals) (co : Collab) (users : Users) (entry : Entry) : Run :=
  match entry.messaging with
  | none => Run.throw [] (.typeError "entry.messaging is undefined")
  | some messaging =>
    match messaging.head? with
    | none => Run.throw [] (.typeError "in: webhookEvent is undefined")
    | some webhookEvent =>
      if webhookEvent.read then Run.done []
      else if webhookEvent.delivery then Run.done []
      else
        match webhookEvent.sender with
        | none => Run.throw [] (.typeError "webhookEvent.sender is undefined")
        | some senderPsid =>
          if !(inUsers senderPsid users) then
            let client := co.construct senderPsid
            { trace := [.newClient senderPsid, .fetchProfile senderPsid],
              pending := [{ client := client, event := webhookEvent, senderPsid := senderPsid }],
              raised := none }
          else
            -- here `client` is outside the block of `let client`: the global
            match g.client with
            | none => Run.throw [] (.referenceError "client")
            | some client =>
              let r := safeLocale g co client.locale
              match r.raised with
              | some _ => r
              | none =>
                Run.after (r.trace ++ [.log "Profile already exists PSID:"])
                  (Run.done [.triageMessage client webhookEvent])

/-- The callback of `body.entry.forEach` (lines 112-183). -/
def triageEntry (g : Globals) (co : Collab) (users : Users) (entry : Entry) : Run :=
  match entry.changes with
  | some changes =>
    -- `new Receive()`: `Receive` is not declared in `app.js`
    if !g.Receive then Run.throw [] (.referenceError "Receive")
    else
      match changes.head? with
      | none => Run.throw [] (.typeError "entry.changes[0] is undefined")
      | some first =>
        if first.field = .str "feed" then
          match first.value with
          | none => Run.throw [] (.typeError "change is undefined")
          | some change =>
            if change.item = .str "post" then
              Run.done [.handlePrivateReply "post_id" change.post_id]
            else if change.item = .str "comment" then
              Run.done [.handlePrivateReply "commentgity _id" change.comment_id]
            else
              Run.done [.log "Unsupported feed change type."]
        else triageMessaging g co users entry
  | none => triageMessaging g co users entry

/-- The loop `array.forEach(f)`: the elements in order, ended by the first
call that raises. -/
def forEach (f : Entry → Run) : List Entry → Run
  | [] => Run.done []
  | e :: rest =>
    let r := f e
    match r.raised with
    | some _ => r
    | none =>
      let r2 := forEach f rest
      { trace := r.trace ++ r2.trace, pending := r.pending ++ r2.pending, raised := r2.raised }

/-- The handler of `app.post("/webhook")` (lines 103-188). -/
def postWebhook (g : Globals) (co : Collab) (users : Users) (body : Body) : Run :=
  if body.object = .str "page" then
    Run.after [.send 200 (.str "EVENT_RECEIVED")]
      (match body.entry with
       | none => Run.throw [] (.typeError "body.entry is undefined")
       | some entries => forEach (triageEntry g co users) entries)
  else
    Run.done [.sendStatus 404]

/-! ## The profile fetch and the promise chain of a first contact -/

/-- How the promise returned by `callUserProfileAPI` is settled, as the
callbacks chained on it see it: `resolve` with the parsed body on `end`,
`reject(Error(statusCode))` on a response whose status is not 200,
`reject(Error("Network Error"))` on `error`.  Whether the process lives to run
those callbacks is decided by the `Exchange` below. -/
inductive FetchResult where
  | resolved (profile : Profile)
  | badStatus (statusCode : Nat)
  | networkError
  deriving DecidableEq, Repr

/-- The value of `o[k]`, `none` when `o` has no property `k`. -/
def getProp (o : Profile) (k : String) : Option JsVal :=
  (o.find? (fun kv => kv.1 = k)).map Prod.snd

/-- The statement `delete o[k]`. -/
def deleteProp (o : Profile) (k : String) : Profile :=
  o.filter (fun kv => kv.1 ≠ k)

/-- The array index a property name denotes, if it denotes one: the name is the
canonical decimal form of a number below `2^32 - 1`. -/
def indexKey (k : String) : Option Nat :=
  match k.data with
  | [] => none
  | c :: cs =>
    if (c :: cs).all Char.isDigit && (c != '0' || cs.isEmpty) then
      let n := (c :: cs).foldl (fun acc d => 10 * acc + (d.toNat - 48)) 0
      if n < 4294967295 then some n else none
    else none

/-- A new property whose name is the index `n` takes its place among the index
properties, which come first in ascending order. -/
def insertIndexProp (n : Nat) (kv : String × JsVal) : Profile → Profile
  | [] => [kv]
  | x :: rest =>
    match indexKey x.1 with
    | some m => if m < n then x :: insertIndexProp n kv rest else kv :: x :: rest
    | none => kv :: x :: rest

/-- The assignment `o[k] = v`: an existing property keeps its place; a new one
goes last when its name is a string, and among the index properties when its
name is an array index. -/
def setProp (o : Profile) (k : String) (v : JsVal) : Profile :=
  if o.any (fun kv => kv.1 = k) then o.map (fun kv => if kv.1 = k then (k, v) else kv)
  else
    match indexKey k with
    | none => o ++ [(k, v)]
    | some n => insertIndexProp n (k, v) o

/-- The `for (const key in userProfile)` loop of `getUserProfile`: the keys
present when the loop starts are visited in order, one deleted before its turn
is skipped. -/
def camelizeKeys (camelCase : String → String) (userProfile : Profile) : Profile :=
  (userProfile.map Prod.fst).foldl
    (fun o key =>
      match getProp o key with
      | none => o
      | some value => setProp (deleteProp o key) (camelCase key) value)
    userProfile

/-- The async function `getUserProfile` of `graph-api.js` once the promise of
`callUserProfileAPI` has settled: its own promise always fulfils, with the
camel-cased profile or, after the `catch`, with `undefined` (`none`). -/
def getUserProfile (co : Collab) (r : FetchResult) : List Effect × Option Profile :=
  match r with
  | .resolved userProfile => ([], some (camelizeKeys co.camelCase userProfile))
  | .badStatus _ => ([.log "Fetch failed:"], none)
  | .networkError => ([.log "Fetch failed:"], none)

/-- The callbacks `.then(...).catch(...).finally(...)` of lines 159-171, as
they run when the fetch for the pending chain `p` has settled as `r`. -/
def firstContactCallbacks (g : Globals) (co : Collab) (p : Pending) (r : FetchResult) : Run :=
  let (t1, userProfile) := getUserProfile co r
  -- .then(userProfile => { client.setProfile(userProfile); })
  let (client, thrown) := co.setProfile p.client userProfile
  let t2 : List Effect :=
    match thrown with
    | none => [.setProfile p.senderPsid userProfile]
    -- .catch(error => { console.log("Profile is unavailable:", error); })
    | some _ => [.setProfile p.senderPsid userProfile, .log "Profile is unavailable:"]
  -- .finally(() => { safeLocale(client.locale); new In(...).triageMessage() })
  let r3 := safeLocale g co client.locale
  match r3.raised with
  | some e => Run.throw (t1 ++ t2 ++ r3.trace) e
  | none => Run.done (t1 ++ t2 ++ r3.trace ++ [.triageMessage client p.event])

/-- What the pending chain `p` does given the settlement of its promise, in a
process that lives to run the callbacks: nothing as long as the promise has
not settled (`none`), otherwise the settlement followed by the callbacks. -/
def resume (g : Globals) (co : Collab) (p : Pending) (outcome : Option FetchResult) : Run :=
  match outcome with
  | none => Run.done []
  | some r => Run.after [.fetchSettled p.senderPsid] (firstContactCallbacks g co p r)

/-- The body of an HTTP answer as `JSON.parse` takes it: the JSON object it
denotes, or text that is not JSON (an empty body, an HTML error page). -/
inductive ResponseBody where
  | json (value : Profile)
  | notJson
  deriving DecidableEq, Repr

/-- One HTTP exchange of `callUserProfileAPI` as its listeners see it: the
`error` event alone, or the `response` event with a status code followed by
`data` and `end` with the body.  The flag `endFirst` says whether `end` is
delivered before the promise jobs pending since `response` get to run (the
body came with the headers) or only after them. -/
inductive Exchange where
  | failed
  | answered (statusCode : Nat) (body : ResponseBody) (endFirst : Bool)
  deriving DecidableEq, Repr

/-- Whether `JSON.parse` in the `end` listener returns on this exchange: always
when there is no answer at all, otherwise when the body is JSON. -/
def Exchange.parses : Exchange → Bool
  | .failed => true
  | .answered _ (.json _) _ => true
  | .answered _ .notJson _ => false

/-- The listeners of `callUserProfileAPI` (lines 162-177 of `graph-api.js`) on
one exchange, with the chain `p` waiting on the promise.  The `response`
listener rejects on a status other than 200 and lets the stream go on; the
`end` listener runs `JSON.parse(body)` whatever the status, outside the
promise executor, so what it raises is an uncaught exception that ends the
process. -/
def answer (g : Globals) (co : Collab) (p : Pending) (x : Exchange) : Run :=
  match x with
  | .failed =>
    -- .on("error"): reject(Error("Network Error"))
    resume g co p (some .networkError)
  | .answered statusCode body endFirst =>
    if statusCode ≠ 200 then
      -- .on("response"): reject(Error(response.statusCode))
      match body with
      | .json _ =>
        -- .on("end"): the body parses, `resolve` on a settled promise does nothing
        resume g co p (some (.badStatus statusCode))
      | .notJson =>
        -- .on("end"): JSON.parse raises
        if endFirst then
          Run.throw [.fetchSettled p.senderPsid] (.syntaxError "JSON.parse")
        else
          Run.after (resume g co p (some (.badStatus statusCode))).trace
            (Run.throw [] (.syntaxError "JSON.parse"))
    else
      match body with
      | .json value =>
        -- .on("end"): resolve(JSON.parse(body))
        resume g co p (some (.resolved value))
      | .notJson =>
        -- .on("end"): JSON.parse raises, the promise never settles
        Run.throw [] (.syntaxError "JSON.parse")

/-- The whole history of one entry: the synchronous callback, then each chain
it registered on the exchange of its fetch (`none`: nothing has come back
yet). -/
def entryTimeline (g : Globals) (co : Collab) (users : Users) (entry : Entry)
    (exchange : Option Exchange) : List Effect :=
  let r := triageEntry g co users entry
  r.trace ++ (r.pending.map (fun p =>
    match exchange with
    | none => []
    | some x => (answer g co p x).trace)).flatten

/-! ## The request pipeline in front of `POST /webhook` -/

/-- An incoming `POST`: the `x-hub-signature` header, the raw body and the body
as `express.json` parses it. -/
structure Request where
  signature : Option String
  rawBody : String
  body : Body

/-- The options object given to `express.json`: `verify` is the hook called
with the raw body before parsing, when one is given. -/
structure JsonOptions where
  limit : String
  verify : Option (Option String → String → List Effect × Option JsError)

/-- The options of lines 66-70: only a `limit`. -/
def jsonOptions : JsonOptions := { limit := "10mb", verify := none }

/-- The `express.json(opts)` middleware: a raising `verify` hook ends the
request before any route handler. -/
def expressJson (opts : JsonOptions) (req : Request) : List Effect × Option JsError :=
  match opts.verify with
  | none => ([], none)
  | some verify => verify req.signature req.rawBody

/-- One `POST /webhook` request through the application: the middleware, then
the route handler.  The second component is `users` afterwards: no statement
of `app.js` assigns to `users` or to a property of it. -/
def handlePost (g : Globals) (co : Collab) (users : Users) (req : Request) : Run × Users :=
  match expressJson jsonOptions req with
  | (t, some e) => (Run.throw t e, users)
  | (t, none) => (Run.after t (postWebhook g co users req.body), users)

/-- The effects of every chain of `r` resumed with `outcome`. -/
def resumeAll (g : Globals) (co : Collab) (r : Run) (outcome : Option FetchResult) : List Effect :=
  (r.pending.map (fun p => (resume g co p outcome).trace)).flatten

/-! ## `Contact.handlePayload` of `support.js` -/

/-- The collaborators of `support.js`, producing message units of type `Msg`:
`translate` is `i18n.__` with its substitution object as key/value pairs. -/
structure Api (Msg : Type) where
  translate : String → List (String × JsVal) → String
  genQuickReply : String → List (String × String) → Msg
  genTextWithPersona : String → JsVal → Msg
  genAgentRating : JsVal → Msg

/-- The value of `response`: `null`, one unit, or an array of units. -/
inductive Response (Msg : Type) where
  | null
  | single (unit : Msg)
  | seq (units : List Msg)
  deriving DecidableEq, Repr

/-- The method `Contact.handlePayload(payload)` on a contact whose
`this.client.firstName` is `firstName`. -/
def handlePayload {Msg : Type} (cfg : Config) (api : Api Msg) (firstName : JsVal)
    (payload : String) : Response Msg :=
  if payload = "SUPPORT_HELP" then
    .single (api.genQuickReply
      (api.translate "support.prompt" [("userFirstName", firstName)])
      [(api.translate "support.order" [], "SUPPORT_ORDER"),
       (api.translate "support.inquiry" [], "SUPPORT_INQUIRY"),
       (api.translate "support.billing" [], "SUPPORT_BILLING"),
       (api.translate "support.other" [], "SUPPORT_OTHER")])
  else if payload = "SUPPORT_INQUIRY" then
    .seq [api.genTextWithPersona
      (api.translate "support.issue"
        [("userFirstName", firstName),
         ("agentFirstName", cfg.personaOrder.name),
         ("topic", .str (api.translate "support.order" []))])
      cfg.personaOrder.id]
  else if payload = "SUPPORT_ORDER" then
    .seq [api.genTextWithPersona
      (api.translate "support.issue"
        [("userFirstName", firstName),
         ("agentFirstName", cfg.personaOrder.name),
         ("topic", .str (api.translate "support.order" []))])
      cfg.personaOrder.id]
  else if payload = "SUPPORT_BILLING" then
    .seq [api.genTextWithPersona
      (api.translate "support.issue"
        [("userFirstName", firstName),
         ("agentFirstName", cfg.personaBilling.name),
         ("topic", .str (api.translate "support.billing" []))])
      cfg.personaBilling.id]
  else if payload = "SUPPORT_SALES" then
    .seq [api.genTextWithPersona
      (api.translate "support.style"
        [("userFirstName", firstName),
         ("agentFirstName", cfg.personaSales.name)])
      cfg.personaSales.id]
  else if payload = "SUPPORT_OTHER" then
    .seq [api.genTextWithPersona
      (api.translate "support.default"
        [("userFirstName", firstName),
         ("agentFirstName", cfg.personaCare.name)])
      cfg.personaCare.id]
  else if payload = "SUPPORT_END" then
    .seq [api.genTextWithPersona (api.translate "support.end" []) cfg.personaCare.id,
          api.genAgentRating cfg.personaCare.name]
  else
    .null

/-! ## Sample inputs -/

/-- A configuration for the examples. -/
def sampleConfig : Config :=
  { appSecret := "secret", verifyToken := some "T",
    personaBilling := { name := .str "Bill", id := .str "1" },
    personaCare := { name := .str "Cara", id := .str "2" },
    personaOrder := { name := .str "Otto", id := .str "3" },
    personaSales := { name := .str "Sal", id := .str "4" } }

/-- Collaborators for the examples: every locale is accepted, a fresh client
has no first name and the locale `en_US`, `setProfile` raises on `undefined`
and otherwise changes nothing, `camelCase` is the identity. -/
def sampleCollab : Collab :=
  { accepts := fun _ => true,
    construct := fun psid => { psid := psid, firstName := .undefined, locale := .str "en_US" },
    setProfile := fun c p =>
      match p with
      | none => (c, some (.typeError "profile is undefined"))
      | some _ => (c, none),
    camelCase := fun k => k }

/-- A text message `text` sent by `psid`. -/
def textEvent (psid text : String) : WebhookEvent :=
  { read := false, delivery := false, sender := some psid, message := .str text,
    postback := .undefined }

/-- An entry whose `messaging` array holds the one event `ev`. -/
def messagingEntry (ev : WebhookEvent) : Entry :=
  { changes := none, messaging := some [ev] }

/-- An entry with neither `changes` nor `messaging`. -/
def shapelessEntry : Entry := { changes := none, messaging := none }

/-- An entry with the one page change `field: "feed"` on an item of type
`item`, with the given `post_id` and `comment_id`. -/
def feedEntry (item post_id comment_id : JsVal) : Entry :=
  { changes := some [{ field := .str "feed",
                       value := some { item := item, post_id := post_id,
                                       comment_id := comment_id } }],
    messaging := none }

/-- A stand-in for HMAC-SHA1 in the examples: a constant digest. -/
def sampleHmac : String → String → String := fun _ _ => "ab12"

/-- The locale `i18n` is set to after the effects of a trace, starting from
`current`: the argument of the last `setLocale` that took effect. -/
def activeLocale (current : JsVal) : List Effect → JsVal
  | [] => current
  | .setLocale l :: rest => activeLocale l rest
  | _ :: rest => activeLocale current rest

/-- The effects that matter for the order of a first contact: the profile
fetch being issued, its settlement, and calls of `triageMessage`. -/
def Effect.isFetchOrTriage : Effect → Bool
  | .fetchProfile _ => true
  | .fetchSettled _ => true
  | .triageMessage _ _ => true
  | _ => false

/-- A request body of object `page` with the given entries. -/
def pageBody (entries : List Entry) : Body :=
  { object := .str "page", entry := some entries }

/-- A request whose signature header does not match its body: one text
message from `U1`. -/
def forgedRequest : Request :=
  { signature := some "sha1=0000",
    rawBody := "raw",
    body := pageBody [messagingEntry (textEvent "U1" "hi")] }

/-- A request with a matching signature header (for the digest of
`sampleHmac`): one text message from `U1`. -/
def helloRequest : Request :=
  { signature := some "sha1=ab12",
    rawBody := "raw",
    body := pageBody [messagingEntry (textEvent "U1" "hi")] }

/-- The globals with a `Receive` class defined and no `client`. -/
def withReceive : Globals := { Receive := true, client := none }


/-- The seven payload identifiers named by the `case` labels of
`Contact.handlePayload`. -/
def supportPayloads : List String :=
  ["SUPPORT_HELP", "SUPPORT_INQUIRY", "SUPPORT_ORDER", "SUPPORT_BILLING",
   "SUPPORT_SALES", "SUPPORT_OTHER", "SUPPORT_END"]

/-- Collaborators for the locale examples: as `sampleCollab`, but `setProfile`
stores the `locale` of the profile it is given in the client. -/
def localeCollab : Collab :=
  { sampleCollab with
    setProfile := fun c p =>
      match p with
      | none => (c, some (.typeError "profile is undefined"))
      | some profile =>
        ({ c with locale := (getProp profile "locale").getD .undefined }, none) }

/-- A pending first contact of `U1`. -/
def pendingU1 : Pending :=
  { client := localeCollab.construct "U1", event := textEvent "U1" "hi", senderPsid := "U1" }

/-! ## Lemmas on `split` -/

theorem splitChars_ne_nil (sep : Char) (l : List Char) : splitChars sep l ≠ [] := by
  cases l with
  | nil => simp [splitChars]
  | cons c cs =>
    unfold splitChars
    split_ifs
    · simp
    · split <;> simp

theorem splitChars_cons_sep (sep : Char) (cs : List Char) :
    splitChars sep (sep :: cs) = [] :: splitChars sep cs := by
  simp [splitChars]

theorem splitChars_cons_ne (sep c : Char) (cs : List Char) (h : c ≠ sep) :
    ∃ f t, splitChars sep cs = f :: t ∧ splitChars sep (c :: cs) = (c :: f) :: t := by
  cases hs : splitChars sep cs with
  | nil => exact absurd hs (splitChars_ne_nil sep cs)
  | cons f t =>
    refine ⟨f, t, rfl, ?_⟩
    simp [splitChars, h, hs]

/-- The first field of a split is `d` exactly when the text is `d`, or `d`
followed by the separator and anything. -/
theorem splitChars_head (sep : Char) (d : List Char) (hd : sep ∉ d) (l : List Char) :
    (splitChars sep l)[0]? = some d ↔
      ∃ rest, l = d ++ rest ∧ (rest = [] ∨ ∃ r, rest = sep :: r) := by
  induction l generalizing d with
  | nil =>
    simp only [splitChars, List.getElem?_cons_zero, Option.some.injEq]
    constructor
    · intro h; subst h; exact ⟨[], rfl, Or.inl rfl⟩
    · rintro ⟨rest, h, _⟩
      have := List.append_eq_nil.mp h.symm
      exact this.1.symm
  | cons c cs ih =>
    by_cases hc : c = sep
    · subst hc
      rw [splitChars_cons_sep]
      simp only [List.getElem?_cons_zero, Option.some.injEq]
      constructor
      · intro h; subst h; exact ⟨c :: cs, rfl, Or.inr ⟨cs, rfl⟩⟩
      · rintro ⟨rest, h, _⟩
        cases d with
        | nil => rfl
        | cons x xs =>
          simp only [List.cons_append, List.cons.injEq] at h
          exact absurd (h.1 ▸ List.mem_cons_self _ _) hd
    · obtain ⟨f, t, hs, hs2⟩ := splitChars_cons_ne sep c cs hc
      rw [hs2]
      simp only [List.getElem?_cons_zero, Option.some.injEq]
      constructor
      · intro h
        subst h
        have hf : sep ∉ f := fun hm => hd (List.mem_cons_of_mem _ hm)
        have := (ih f hf).mp (by rw [hs]; simp)
        obtain ⟨rest, h1, h2⟩ := this
        exact ⟨rest, by rw [h1]; rfl, h2⟩
      · rintro ⟨rest, h, hr⟩
        cases d with
        | nil =>
          simp only [List.nil_append] at h
          rcases hr with hr | ⟨r, hr⟩
          · rw [hr] at h; exact absurd h (by simp)
          · rw [hr] at h
            simp only [List.cons.injEq] at h
            exact absurd h.1 hc
        | cons x xs =>
          simp only [List.cons_append, List.cons.injEq] at h
          have hx : sep ∉ xs := fun hm => hd (List.mem_cons_of_mem _ hm)
          have := (ih xs hx).mpr ⟨rest, h.2, hr⟩
          rw [hs] at this
          simp only [List.getElem?_cons_zero, Option.some.injEq] at this
          rw [this, h.1]

/-- The second field of a split is `d` exactly when the text is a first field
without separator, the separator, `d`, and then nothing or the separator and
anything. -/
theorem splitChars_second (sep : Char) (d : List Char) (hd : sep ∉ d) (l : List Char) :
    (splitChars sep l)[1]? = some d ↔
      ∃ p rest, sep ∉ p ∧ l = p ++ sep :: (d ++ rest) ∧ (rest = [] ∨ ∃ r, rest = sep :: r) := by
  induction l with
  | nil =>
    simp only [splitChars]
    constructor
    · intro h; simp at h
    · rintro ⟨p, rest, _, h, _⟩
      exact absurd h (by simp)
  | cons c cs ih =>
    by_cases hc : c = sep
    · subst hc
      rw [splitChars_cons_sep, List.getElem?_cons_succ, splitChars_head c d hd]
      constructor
      · rintro ⟨rest, h1, h2⟩
        exact ⟨[], rest, by simp, by rw [h1]; rfl, h2⟩
      · rintro ⟨p, rest, hp, h1, h2⟩
        cases p with
        | nil =>
          simp only [List.nil_append, List.cons.injEq, true_and] at h1
          exact ⟨rest, h1, h2⟩
        | cons x xs =>
          simp only [List.cons_append, List.cons.injEq] at h1
          exact absurd (h1.1 ▸ List.mem_cons_self _ _) hp
    · obtain ⟨f, t, hs, hs2⟩ := splitChars_cons_ne sep c cs hc
      rw [hs2, List.getElem?_cons_succ]
      have : t[0]? = (splitChars sep cs)[1]? := by rw [hs]; simp
      rw [this, ih]
      constructor
      · rintro ⟨p, rest, hp, h1, h2⟩
        refine ⟨c :: p, rest, ?_, by rw [h1]; rfl, h2⟩
        intro hm
        rcases List.mem_cons.mp hm with h | h
        · exact hc h.symm
        · exact hp h
      · rintro ⟨p, rest, hp, h1, h2⟩
        cases p with
        | nil =>
          simp only [List.nil_append, List.cons.injEq] at h1
          exact absurd h1.1 hc
        | cons x xs =>
          simp only [List.cons_append, List.cons.injEq] at h1
          exact ⟨xs, rest, fun hm => hp (List.mem_cons_of_mem _ hm), h1.2, h2⟩


/-! ## C2: `verifyRequestSignature` -/

theorem jsSplit_second (s d : String) :
    (jsSplit s '=')[1]? = some d ↔ (splitChars '=' s.data)[1]? = some d.data := by
  unfold jsSplit
  rw [List.getElem?_map]
  cases h : (splitChars '=' s.data)[1]? with
  | none => simp
  | some x =>
    simp only [Option.map_some', Option.some.injEq]
    constructor
    · intro h2; rw [← h2]
    · intro h2; rw [h2]

theorem string_shape (s p d rest : String) :
    s = p ++ "=" ++ d ++ rest ↔ s.data = p.data ++ '=' :: (d.data ++ rest.data) := by
  rw [String.ext_iff]
  simp [String.data_append]

theorem verifyRequestSignature_raises (hmacHex : String → String → String) (cfg : Config)
    (s : String) (buf : String) (hs : s ≠ "") :
    (verifyRequestSignature hmacHex cfg (some s) buf).2 ≠ none ↔
      (jsSplit s '=')[1]? ≠ some (hmacHex cfg.appSecret buf) := by
  unfold verifyRequestSignature
  simp only [hs, if_false]
  split_ifs with h
  · simp [h]
  · simp [h]

/-- C2 fails as stated: raising is not equivalent to the header being present
and different from `sha1=` followed by the digest.  The header `md5=ab12` is
accepted when the digest is `ab12`. -/
theorem verifyRequestSignature_not_label_checked :
    ¬ ∀ (hmacHex : String → String → String) (cfg : Config) (header : Option String)
        (buf : String),
        ((verifyRequestSignature hmacHex cfg header buf).2 ≠ none ↔
          ∃ s, header = some s ∧ s ≠ "sha1=" ++ hmacHex cfg.appSecret buf) := by
  intro h
  have h2 := (h sampleHmac sampleConfig (some "md5=ab12") "body").mpr ⟨_, rfl, by decide⟩
  revert h2
  decide

/-- C2 as amended, for a digest without `=` (as every hex digest):
`verifyRequestSignature` raises exactly when the header is present, non-empty,
and not of the form `p=digest` or `p=digest=...` with `p` free of `=`; the text
before the first `=` is not compared.  It does not raise when the header is
absent or empty, nor on `sha1=` followed by the digest. -/
theorem verifyRequestSignature_raises_iff (hmacHex : String → String → String) (cfg : Config)
    (header : Option String) (buf : String)
    (hhex : '=' ∉ (hmacHex cfg.appSecret buf).data) :
    ((verifyRequestSignature hmacHex cfg header buf).2 ≠ none ↔
      ∃ s, header = some s ∧ s ≠ "" ∧
        ¬ ∃ p rest : String, '=' ∉ p.data ∧
            s = p ++ "=" ++ hmacHex cfg.appSecret buf ++ rest ∧
            (rest = "" ∨ rest.data.head? = some '=')) ∧
    (verifyRequestSignature hmacHex cfg none buf).2 = none ∧
    (verifyRequestSignature hmacHex cfg (some "") buf).2 = none ∧
    (verifyRequestSignature hmacHex cfg (some ("sha1=" ++ hmacHex cfg.appSecret buf)) buf).2
      = none := by
  have shape : ∀ s : String, (jsSplit s '=')[1]? = some (hmacHex cfg.appSecret buf) ↔
      ∃ p rest : String, '=' ∉ p.data ∧
            s = p ++ "=" ++ hmacHex cfg.appSecret buf ++ rest ∧
            (rest = "" ∨ rest.data.head? = some '=') := by
    intro s
    rw [jsSplit_second, splitChars_second '=' _ hhex]
    constructor
    · rintro ⟨p, rest, hp, h1, h2⟩
      refine ⟨⟨p⟩, ⟨rest⟩, hp, (string_shape _ _ _ _).mpr h1, ?_⟩
      rcases h2 with h2 | ⟨r, h2⟩
      · left; rw [h2]
      · right; rw [h2]; rfl
    · rintro ⟨p, rest, hp, h1, h2⟩
      refine ⟨p.data, rest.data, hp, (string_shape _ _ _ _).mp h1, ?_⟩
      rcases h2 with h2 | h2
      · left; rw [h2]
      · right
        cases hr : rest.data with
        | nil => rw [hr] at h2; simp at h2
        | cons x xs =>
          rw [hr] at h2
          simp only [List.head?_cons, Option.some.injEq] at h2
          exact ⟨xs, by rw [h2]⟩
  refine ⟨?_, rfl, rfl, ?_⟩
  · cases header with
    | none => simp [verifyRequestSignature]
    | some s =>
      by_cases hs : s = ""
      · subst hs
        simp [verifyRequestSignature]
      · rw [verifyRequestSignature_raises hmacHex cfg s buf hs, Ne, shape s]
        constructor
        · intro h; exact ⟨s, rfl, hs, h⟩
        · rintro ⟨s2, h1, _, h3⟩
          cases h1
          exact h3
  · have hne : ("sha1=" ++ hmacHex cfg.appSecret buf) ≠ "" := by
      intro h
      have := congrArg String.data h
      simp [String.data_append] at this
    by_contra hc
    have := (verifyRequestSignature_raises hmacHex cfg _ buf hne).mp hc
    apply this
    rw [shape]
    exact ⟨"sha1", "", by decide, by simp, Or.inl rfl⟩

/-- Witness for C2: the digest `ab12` has no `=`, and the amended statement
holds for the header `sha1=ab13`. -/
theorem verifyRequestSignature_raises_iff_witness :
    '=' ∉ (sampleHmac sampleConfig.appSecret "body").data ∧
    (((verifyRequestSignature sampleHmac sampleConfig (some "sha1=ab13") "body").2 ≠ none ↔
      ∃ s, some "sha1=ab13" = some s ∧ s ≠ "" ∧
        ¬ ∃ p rest : String, '=' ∉ p.data ∧
            s = p ++ "=" ++ sampleHmac sampleConfig.appSecret "body" ++ rest ∧
            (rest = "" ∨ rest.data.head? = some '=')) ∧
    (verifyRequestSignature sampleHmac sampleConfig none "body").2 = none ∧
    (verifyRequestSignature sampleHmac sampleConfig (some "") "body").2 = none ∧
    (verifyRequestSignature sampleHmac sampleConfig
      (some ("sha1=" ++ sampleHmac sampleConfig.appSecret "body")) "body").2 = none) :=
  ⟨by decide,
   verifyRequestSignature_raises_iff sampleHmac sampleConfig (some "sha1=ab13") "body"
     (by decide)⟩

/-! ## C3: `GET /webhook` -/

/-- The handler of `GET /webhook` does not answer 403 to every request outside
the accepting case: a request without `hub.mode` and `hub.verify_token` gets
no response at all. -/
theorem getWebhook_not_always_403 :
    ¬ ∀ (cfg : Config) (mode token challenge : JsVal),
        (response (getWebhook cfg mode token challenge) = some (200, some challenge) ↔
          (mode = .str "subscribe" ∧ token = JsVal.ofEnv cfg.verifyToken)) ∧
        (¬ (mode = .str "subscribe" ∧ token = JsVal.ofEnv cfg.verifyToken) →
          response (getWebhook cfg mode token challenge) = some (403, none)) := by
  intro h
  have h2 := (h sampleConfig .undefined .undefined (.str "123")).2 (by decide)
  revert h2
  decide

/-- What the handler of `GET /webhook` does, case by case: it answers 200 with
the challenge exactly when `hub.mode` is `"subscribe"` and `hub.verify_token`
is non-empty and equals `Config.verifyToken`; it answers 403 exactly when both
parameters are present and non-empty but that test fails; and exactly when
`hub.mode` or `hub.verify_token` is absent or empty, the `if (mode && token)`
without `else` leaves the request unanswered. -/
theorem getWebhook_response (cfg : Config) (mode token challenge : JsVal) :
    (response (getWebhook cfg mode token challenge) = some (200, some challenge) ↔
      (mode = .str "subscribe" ∧ token.truthy = true ∧ token = JsVal.ofEnv cfg.verifyToken)) ∧
    (response (getWebhook cfg mode token challenge) = some (403, none) ↔
      (mode.truthy = true ∧ token.truthy = true ∧
        ¬ (mode = .str "subscribe" ∧ token = JsVal.ofEnv cfg.verifyToken))) ∧
    (response (getWebhook cfg mode token challenge) = none ↔
      ¬ (mode.truthy = true ∧ token.truthy = true)) := by
  have key : response (getWebhook cfg mode token challenge) =
      if mode.truthy = true ∧ token.truthy = true then
        (if mode = .str "subscribe" ∧ token = JsVal.ofEnv cfg.verifyToken
          then some (200, some challenge) else some (403, none))
      else none := by
    unfold getWebhook
    simp only [Bool.and_eq_true]
    split_ifs <;> rfl
  rw [key]
  by_cases hm : mode.truthy = true
  · by_cases ht : token.truthy = true
    · by_cases hc : mode = .str "subscribe" ∧ token = JsVal.ofEnv cfg.verifyToken
      · rw [if_pos ⟨hm, ht⟩, if_pos hc]
        refine ⟨⟨fun _ => ⟨hc.1, ht, hc.2⟩, fun _ => rfl⟩, ⟨fun h => ?_, fun h => absurd hc h.2.2⟩,
          ⟨fun h => ?_, fun h => absurd ⟨hm, ht⟩ h⟩⟩
        · simp at h
        · simp at h
      · rw [if_pos ⟨hm, ht⟩, if_neg hc]
        refine ⟨⟨fun h => ?_, fun h => absurd ⟨h.1, h.2.2⟩ hc⟩, ⟨fun _ => ⟨hm, ht, hc⟩, fun _ => rfl⟩,
          ⟨fun h => ?_, fun h => absurd ⟨hm, ht⟩ h⟩⟩
        · simp at h
        · simp at h
    · rw [if_neg (fun h => ht h.2)]
      refine ⟨⟨fun h => ?_, fun h => absurd h.2.1 ht⟩, ⟨fun h => ?_, fun h => absurd h.2.1 ht⟩,
          ⟨fun _ h => ht h.2, fun _ => rfl⟩⟩
      · simp at h
      · simp at h
  · rw [if_neg (fun h => hm h.1)]
    refine ⟨⟨fun h => ?_, fun h => ?_⟩, ⟨fun h => ?_, fun h => absurd h.1 hm⟩,
          ⟨fun _ h => hm h.1, fun _ => rfl⟩⟩
    · simp at h
    · exact absurd (by rw [h.1]; decide) hm
    · simp at h

/-- C3, evaluated on the code: a request without `hub.mode` and
`hub.verify_token`, whatever its challenge and the configured token, is sent
nothing, neither 200 nor the 403 of the claim; so is every request in which
one of the two parameters is absent or empty. -/
theorem getWebhook_missing_params_unanswered (cfg : Config) (challenge : JsVal) :
    getWebhook cfg .undefined .undefined challenge = [] ∧
    response (getWebhook cfg .undefined .undefined challenge) = none ∧
    (∀ token : JsVal, getWebhook cfg .undefined token challenge = [] ∧
      getWebhook cfg (.str "") token challenge = []) ∧
    (∀ mode : JsVal, getWebhook cfg mode .undefined challenge = [] ∧
      getWebhook cfg mode (.str "") challenge = []) := by
  refine ⟨by simp [getWebhook, JsVal.truthy], by simp [getWebhook, JsVal.truthy, response],
    fun token => ⟨by simp [getWebhook, JsVal.truthy], by simp [getWebhook, JsVal.truthy]⟩,
    fun mode => ⟨by simp [getWebhook, JsVal.truthy], by simp [getWebhook, JsVal.truthy]⟩⟩

/-! ## C9, C10: `Contact.handlePayload` -/

/-- C9: for every first name `f`, `handlePayload("SUPPORT_BILLING")` is the
array of exactly one unit, `API.genTextWithPersona` applied to the
`support.issue` text with `userFirstName = f`, `agentFirstName =
Config.personaBilling.name` and `topic` the `support.billing` string, and to
`Config.personaBilling.id`. -/
theorem handlePayload_support_billing {Msg : Type} (cfg : Config) (api : Api Msg) (f : JsVal) :
    handlePayload cfg api f "SUPPORT_BILLING" =
      .seq [api.genTextWithPersona
        (api.translate "support.issue"
          [("userFirstName", f),
           ("agentFirstName", cfg.personaBilling.name),
           ("topic", .str (api.translate "support.billing" []))])
        cfg.personaBilling.id] := by
  simp [handlePayload]

/-- C10: for every client, `handlePayload("SUPPORT_END")` is the array of
exactly two units, first the `support.end` text attributed to
`Config.personaCare.id`, then `Survey.genAgentRating(Config.personaCare.name)`. -/
theorem handlePayload_support_end {Msg : Type} (cfg : Config) (api : Api Msg) (f : JsVal) :
    handlePayload cfg api f "SUPPORT_END" =
      .seq [api.genTextWithPersona (api.translate "support.end" []) cfg.personaCare.id,
            api.genAgentRating cfg.personaCare.name] := by
  simp [handlePayload]


/-! ## C5: the first-contact promise chain -/

theorem safeLocale_ok (g : Globals) (co : Collab) (l : JsVal)
    (hen : co.accepts (.str "en_US") = true) :
    (safeLocale g co l).raised = none ∧
      (safeLocale g co l).trace.filter Effect.isFetchOrTriage = [] := by
  unfold safeLocale
  cases hg : g.client with
  | none => simp [i18nSetLocale, hen, Run.done, Effect.isFetchOrTriage]
  | some c =>
    by_cases hc : co.accepts c.locale = true
    · simp [i18nSetLocale, hc, Run.done, Effect.isFetchOrTriage]
    · simp [i18nSetLocale, hc, hen, Run.done, Run.throw, Run.after, Effect.isFetchOrTriage]

theorem firstContactCallbacks_triage (g : Globals) (co : Collab) (p : Pending) (r : FetchResult)
    (hen : co.accepts (.str "en_US") = true) :
    ∃ c, (firstContactCallbacks g co p r).trace.filter Effect.isFetchOrTriage
      = [.triageMessage c p.event] ∧ (firstContactCallbacks g co p r).raised = none := by
  rcases hp : getUserProfile co r with ⟨t1, userProfile⟩
  have ht1 : t1.filter Effect.isFetchOrTriage = [] := by
    cases r <;> simp only [getUserProfile, Prod.mk.injEq] at hp <;> rw [← hp.1] <;> rfl
  rcases hsp : co.setProfile p.client userProfile with ⟨client, thrown⟩
  obtain ⟨h1, h2⟩ := safeLocale_ok g co client.locale hen
  refine ⟨client, ?_⟩
  simp only [firstContactCallbacks, hp, hsp, h1]
  cases thrown <;>
    simp [Run.done, List.filter_append, ht1, h2, Effect.isFetchOrTriage]

/-- On every exchange whose body `JSON.parse` accepts (and on a network
error), for an entry whose first messaging event is neither a read nor a
delivery receipt and whose sender is not in `users`, and an `i18n` that accepts
the fallback locale: the history of the entry restricted to the fetch and to
`triageMessage` is the fetch being issued, its settlement, then exactly one
`triageMessage` for that event; before anything has come back there is no
`triageMessage` at all. -/
theorem triage_after_fetch_settles (g : Globals) (co : Collab) (users : Users) (entry : Entry)
    (ev : WebhookEvent) (rest : List WebhookEvent) (psid : String) (x : Exchange)
    (hch : entry.changes = none) (hmsg : entry.messaging = some (ev :: rest))
    (hread : ev.read = false) (hdel : ev.delivery = false) (hs : ev.sender = some psid)
    (hu : inUsers psid users = false) (hen : co.accepts (.str "en_US") = true)
    (hx : x.parses = true) :
    (∃ c, (entryTimeline g co users entry (some x)).filter Effect.isFetchOrTriage
        = [.fetchProfile psid, .fetchSettled psid, .triageMessage c ev]) ∧
    (entryTimeline g co users entry none).filter Effect.isFetchOrTriage
        = [.fetchProfile psid] := by
  have hrun : triageEntry g co users entry =
      { trace := [.newClient psid, .fetchProfile psid],
        pending := [{ client := co.construct psid, event := ev, senderPsid := psid }],
        raised := none } := by
    simp [triageEntry, triageMessaging, hch, hmsg, hread, hdel, hs, hu]
  have hres : ∀ r : FetchResult, ∃ c,
      ([Effect.newClient psid, .fetchProfile psid] ++
        (resume g co { client := co.construct psid, event := ev, senderPsid := psid }
          (some r)).trace).filter Effect.isFetchOrTriage
        = [.fetchProfile psid, .fetchSettled psid, .triageMessage c ev] := by
    intro r
    obtain ⟨c, hc, _⟩ := firstContactCallbacks_triage g co
      { client := co.construct psid, event := ev, senderPsid := psid } r hen
    refine ⟨c, ?_⟩
    simp only [resume, Run.after]
    simp [List.filter_append, hc, Effect.isFetchOrTriage]
  constructor
  · cases x with
    | failed =>
      obtain ⟨c, hc⟩ := hres .networkError
      exact ⟨c, by simpa [entryTimeline, hrun, answer] using hc⟩
    | answered statusCode body endFirst =>
      cases body with
      | notJson => simp [Exchange.parses] at hx
      | json value =>
        by_cases h200 : statusCode = 200
        · obtain ⟨c, hc⟩ := hres (.resolved value)
          exact ⟨c, by simpa [entryTimeline, hrun, answer, h200] using hc⟩
        · obtain ⟨c, hc⟩ := hres (.badStatus statusCode)
          exact ⟨c, by simpa [entryTimeline, hrun, answer, h200] using hc⟩
  · simp [entryTimeline, hrun, Effect.isFetchOrTriage]

/-- An instance of the lemma above: a text message from the unknown sender `U1`
whose profile fetch fails with a network error. -/
theorem triage_after_fetch_settles_witness :
    inUsers "U1" [] = false ∧ sampleCollab.accepts (.str "en_US") = true ∧
    ((∃ c, (entryTimeline noGlobals sampleCollab [] (messagingEntry (textEvent "U1" "hi"))
          (some .failed)).filter Effect.isFetchOrTriage
        = [.fetchProfile "U1", .fetchSettled "U1", .triageMessage c (textEvent "U1" "hi")]) ∧
    (entryTimeline noGlobals sampleCollab [] (messagingEntry (textEvent "U1" "hi"))
          none).filter Effect.isFetchOrTriage
        = [.fetchProfile "U1"]) :=
  ⟨by decide, rfl,
   triage_after_fetch_settles noGlobals sampleCollab [] (messagingEntry (textEvent "U1" "hi"))
     (textEvent "U1" "hi") [] "U1" .failed rfl rfl rfl rfl rfl (by decide) rfl rfl⟩

/-- C5, evaluated on the code: the first message of the unknown sender `U1`,
whose profile request is answered 404 with a body that is not JSON, delivered
with the headers.  The promise is rejected on `response`, then `JSON.parse`
raises in the `end` listener, outside the promise, before any callback of the
chain has run: whatever the globals and collaborators, the history ends at the
settlement with an uncaught `SyntaxError` and no `triageMessage`.  When the
body of the same 404 is JSON, the settlement is followed by exactly one
`triageMessage`. -/
theorem non_json_error_body_drops_triage (g : Globals) (co : Collab) :
    entryTimeline g co [] (messagingEntry (textEvent "U1" "hi"))
        (some (.answered 404 .notJson true))
      = [.newClient "U1", .fetchProfile "U1", .fetchSettled "U1"] ∧
    (answer g co { client := co.construct "U1", event := textEvent "U1" "hi",
                   senderPsid := "U1" } (.answered 404 .notJson true)).raised
      = some (.syntaxError "JSON.parse") ∧
    (entryTimeline noGlobals sampleCollab [] (messagingEntry (textEvent "U1" "hi"))
        (some (.answered 404 (.json []) true))).filter Effect.isFetchOrTriage
      = [.fetchProfile "U1", .fetchSettled "U1",
         .triageMessage (sampleCollab.construct "U1") (textEvent "U1" "hi")] := by
  refine ⟨?_, ?_, by decide⟩
  · simp [entryTimeline, triageEntry, triageMessaging, messagingEntry, textEvent, inUsers,
      objectPrototypeKeys, answer, Run.throw]
  · simp [answer, Run.throw]

/-! ## The batch loop -/

theorem forEach_append (f : Entry → Run) (xs ys : List Entry) :
    forEach f (xs ++ ys) =
      match (forEach f xs).raised with
      | some _ => forEach f xs
      | none =>
        { trace := (forEach f xs).trace ++ (forEach f ys).trace,
          pending := (forEach f xs).pending ++ (forEach f ys).pending,
          raised := (forEach f ys).raised } := by
  induction xs with
  | nil => simp [forEach, Run.done]
  | cons a as ih =>
    rw [List.cons_append, forEach, forEach, ih]
    cases h : (f a).raised with
    | some e => simp [h]
    | none =>
      cases h2 : (forEach f as).raised with
      | some e2 => simp [h2]
      | none => simp [h2, List.append_assoc]

theorem forEach_single (f : Entry → Run) (e : Entry) : forEach f [e] = f e := by
  rw [forEach, forEach]
  cases h : (f e).raised with
  | some x => simp
  | none =>
    cases hr : f e
    rw [hr] at h
    simp only at h
    simp [Run.done, h]

theorem forEach_cons_raise (f : Entry → Run) (bad : Entry) (post : List Entry)
    (hb : (f bad).raised ≠ none) : forEach f (bad :: post) = f bad := by
  rw [forEach]
  cases h : (f bad).raised with
  | none => exact absurd h hb
  | some e => simp

theorem forEach_append_raise (f : Entry → Run) (pre post : List Entry) (bad : Entry)
    (hb : (f bad).raised ≠ none) :
    forEach f (pre ++ bad :: post) = forEach f (pre ++ [bad]) := by
  rw [forEach_append, forEach_append f pre [bad], forEach_cons_raise f bad post hb,
    forEach_single]

/-! ## C1, C4: signature check and session map -/

/-- C1, evaluated on the code: the request `forgedRequest` carries a signature
header on which `verifyRequestSignature` raises, yet the application (whose
`express.json` options name no `verify` hook) runs the route handler: it
acknowledges, constructs a `Client` for `U1`, issues the profile fetch, and
once the fetch settles calls `triageMessage`. -/
theorem forged_signature_is_triaged (co : Collab) :
    (verifyRequestSignature sampleHmac sampleConfig forgedRequest.signature
        forgedRequest.rawBody).2
      = some (.error "Couldn't validate the request signature.") ∧
    handlePost noGlobals co [] forgedRequest =
      ({ trace := [.send 200 (.str "EVENT_RECEIVED"), .newClient "U1", .fetchProfile "U1"],
         pending := [{ client := co.construct "U1", event := textEvent "U1" "hi",
                       senderPsid := "U1" }],
         raised := none }, []) ∧
    (∃ c, .triageMessage c (textEvent "U1" "hi") ∈
      resumeAll noGlobals sampleCollab (handlePost noGlobals sampleCollab [] forgedRequest).1
        (some (.resolved []))) := by
  refine ⟨by decide, ?_, ?_⟩
  · simp [handlePost, expressJson, jsonOptions, forgedRequest, pageBody, postWebhook, forEach,
      triageEntry, triageMessaging, messagingEntry, textEvent, inUsers, objectPrototypeKeys,
      Run.after, Run.done]
  · exact ⟨sampleCollab.construct "U1", by decide⟩

/-- C4, evaluated on the code: after a message from `U1` has been handled,
`users` is still empty and `U1` is not in it, so the same message handled
again constructs a new `Client` and issues a new profile fetch; no request
changes `users`. -/
theorem users_never_populated (co : Collab) :
    (handlePost noGlobals co [] helloRequest).2 = [] ∧
    inUsers "U1" (handlePost noGlobals co [] helloRequest).2 = false ∧
    (handlePost noGlobals co (handlePost noGlobals co [] helloRequest).2 helloRequest).1.trace
      = [.send 200 (.str "EVENT_RECEIVED"), .newClient "U1", .fetchProfile "U1"] ∧
    (∀ (g : Globals) (users : Users) (req : Request), (handlePost g co users req).2 = users) := by
  have h : ∀ (g : Globals) (users : Users) (req : Request),
      (handlePost g co users req).2 = users := by
    intro g users req
    simp [handlePost, expressJson, jsonOptions]
  refine ⟨h _ _ _, ?_, ?_, h⟩
  · rw [h]; decide
  · rw [h]
    simp [handlePost, expressJson, jsonOptions, helloRequest, pageBody, postWebhook, forEach,
      triageEntry, triageMessaging, messagingEntry, textEvent, inUsers, objectPrototypeKeys,
      Run.after, Run.done]

/-! ## C6: an entry without `changes` and `messaging` -/

/-- C6 fails as stated: in the batch of an entry with neither `changes` nor
`messaging` followed by a text message from `U1`, the loop ends with a
`TypeError` after the acknowledgement and the second entry is not triaged,
although alone it is. -/
theorem shapeless_entry_stops_batch :
    (postWebhook noGlobals sampleCollab []
        (pageBody [shapelessEntry, messagingEntry (textEvent "U1" "hi")])) =
      { trace := [.send 200 (.str "EVENT_RECEIVED")], pending := [],
        raised := some (.typeError "entry.messaging is undefined") } ∧
    (postWebhook noGlobals sampleCollab []
        (pageBody [messagingEntry (textEvent "U1" "hi")])).trace =
      [.send 200 (.str "EVENT_RECEIVED"), .newClient "U1", .fetchProfile "U1"] := by
  decide

/-- C6 as amended: an entry with neither `changes` nor `messaging` makes the
callback raise a `TypeError` with no effect of its own (no response to the
user); the exception leaves the batch loop, so the handler does the same
whatever follows that entry in the batch, it ends raised, and when the entries
before it complete normally its effects are exactly theirs. -/
theorem shapeless_entry_raises (g : Globals) (co : Collab) (users : Users)
    (pre post : List Entry) (bad : Entry)
    (hc : bad.changes = none) (hm : bad.messaging = none) :
    triageEntry g co users bad = Run.throw [] (.typeError "entry.messaging is undefined") ∧
    postWebhook g co users (pageBody (pre ++ bad :: post)) =
      postWebhook g co users (pageBody (pre ++ [bad])) ∧
    (postWebhook g co users (pageBody (pre ++ bad :: post))).raised ≠ none ∧
    ((postWebhook g co users (pageBody pre)).raised = none →
      postWebhook g co users (pageBody (pre ++ bad :: post)) =
        { postWebhook g co users (pageBody pre) with
          raised := some (.typeError "entry.messaging is undefined") }) := by
  have hbad : triageEntry g co users bad
      = Run.throw [] (.typeError "entry.messaging is undefined") := by
    simp [triageEntry, triageMessaging, hc, hm]
  have hr : (triageEntry g co users bad).raised ≠ none := by
    rw [hbad]; simp [Run.throw]
  have happ := forEach_append_raise (triageEntry g co users) pre post bad hr
  have hpw : ∀ es, postWebhook g co users (pageBody es) =
      Run.after [.send 200 (.str "EVENT_RECEIVED")] (forEach (triageEntry g co users) es) := by
    intro es; simp [postWebhook, pageBody]
  refine ⟨hbad, ?_, ?_, ?_⟩
  · rw [hpw, hpw, happ]
  · rw [hpw, happ]
    rw [forEach_append, forEach_single]
    cases hpre : (forEach (triageEntry g co users) pre).raised with
    | none => simp [Run.after, hbad, Run.throw]
    | some e => simp [Run.after, hpre]
  · intro hpre
    rw [hpw] at hpre
    have hpre2 : (forEach (triageEntry g co users) pre).raised = none := by
      simpa [Run.after] using hpre
    rw [hpw, hpw, happ, forEach_append, forEach_single, hbad]
    simp [hpre2, Run.after, Run.throw]


/-- Witness for C6: the batch of a text message from `U0`, a shapeless entry
and a text message from `U1`. -/
theorem shapeless_entry_raises_witness :
    shapelessEntry.changes = none ∧ shapelessEntry.messaging = none ∧
    (triageEntry noGlobals sampleCollab [] shapelessEntry
        = Run.throw [] (.typeError "entry.messaging is undefined") ∧
    postWebhook noGlobals sampleCollab []
        (pageBody ([messagingEntry (textEvent "U0" "a")] ++
          shapelessEntry :: [messagingEntry (textEvent "U1" "hi")])) =
      postWebhook noGlobals sampleCollab []
        (pageBody ([messagingEntry (textEvent "U0" "a")] ++ [shapelessEntry])) ∧
    (postWebhook noGlobals sampleCollab []
        (pageBody ([messagingEntry (textEvent "U0" "a")] ++
          shapelessEntry :: [messagingEntry (textEvent "U1" "hi")]))).raised ≠ none ∧
    ((postWebhook noGlobals sampleCollab []
        (pageBody [messagingEntry (textEvent "U0" "a")])).raised = none →
      postWebhook noGlobals sampleCollab []
        (pageBody ([messagingEntry (textEvent "U0" "a")] ++
          shapelessEntry :: [messagingEntry (textEvent "U1" "hi")])) =
        { postWebhook noGlobals sampleCollab []
            (pageBody [messagingEntry (textEvent "U0" "a")]) with
          raised := some (.typeError "entry.messaging is undefined") })) :=
  ⟨rfl, rfl,
   shapeless_entry_raises noGlobals sampleCollab [] [messagingEntry (textEvent "U0" "a")]
     [messagingEntry (textEvent "U1" "hi")] shapelessEntry rfl rfl⟩

/-! ## C7, C8: page changes -/

/-- C7, evaluated on the code: for the change `item: "comment"` with
`comment_id: "c1"` the callback raises a `ReferenceError` at `new Receive()`
(no `Receive` is declared), were `Receive` defined the handler would be called
with the type `"commentgity _id"`, and whatever the globals and the ids, it is
never called with `"comment_id"`; a change `item: "post"` raises the same `ReferenceError`
and would be dispatched with `"post_id"` were `Receive` defined. -/
theorem private_reply_comment_misrouted (co : Collab) (users : Users) :
    triageEntry noGlobals co users (feedEntry (.str "comment") .undefined (.str "c1"))
      = Run.throw [] (.referenceError "Receive") ∧
    triageEntry withReceive co users (feedEntry (.str "comment") .undefined (.str "c1"))
      = Run.done [.handlePrivateReply "commentgity _id" (.str "c1")] ∧
    (∀ (g : Globals) (postId commentId : JsVal),
      Effect.handlePrivateReply "comment_id" commentId ∉
        (triageEntry g co users (feedEntry (.str "comment") postId commentId)).trace) ∧
    triageEntry noGlobals co users (feedEntry (.str "post") (.str "p1") .undefined)
      = Run.throw [] (.referenceError "Receive") ∧
    triageEntry withReceive co users (feedEntry (.str "post") (.str "p1") .undefined)
      = Run.done [.handlePrivateReply "post_id" (.str "p1")] := by
  refine ⟨?_, ?_, ?_, ?_, ?_⟩
  · simp [triageEntry, feedEntry, noGlobals]
  · simp [triageEntry, feedEntry, withReceive]
  · intro g postId commentId
    cases hg : g.Receive <;>
      simp [triageEntry, feedEntry, hg, Run.throw, Run.done]
  · simp [triageEntry, feedEntry, noGlobals]
  · simp [triageEntry, feedEntry, withReceive]

/-- C8, evaluated on the code: every entry that has a `changes` property, and
so the feed change `item: "like"`, makes the callback raise a `ReferenceError`
at `new Receive()` before the `switch`, with nothing logged; were `Receive`
defined, the change `item: "like"` would be logged and dropped. -/
theorem unsupported_feed_item_raises (co : Collab) (users : Users) :
    (∀ (cs : List Change) (m : Option (List WebhookEvent)),
      triageEntry noGlobals co users { changes := some cs, messaging := m }
        = Run.throw [] (.referenceError "Receive")) ∧
    triageEntry noGlobals co users (feedEntry (.str "like") .undefined .undefined)
      = { trace := [], pending := [], raised := some (.referenceError "Receive") } ∧
    triageEntry withReceive co users (feedEntry (.str "like") .undefined .undefined)
      = Run.done [.log "Unsupported feed change type."] := by
  refine ⟨?_, ?_, ?_⟩
  · intro cs m
    simp [triageEntry, noGlobals]
  · simp [triageEntry, feedEntry, noGlobals, Run.throw]
  · simp [triageEntry, feedEntry, withReceive]

/-! ## C11: payloads without a case -/

/-- C11: for every payload string and every first name, `handlePayload`
returns `null` exactly when the payload is none of the seven `SUPPORT_...`
identifiers (compared as exact strings), and for each of the seven the result
is not `null`. -/
theorem handlePayload_null_iff {Msg : Type} (cfg : Config) (api : Api Msg) (f : JsVal)
    (p : String) :
    (handlePayload cfg api f p = .null ↔ p ∉ supportPayloads) ∧
    (∀ q ∈ supportPayloads, handlePayload cfg api f q ≠ .null) := by
  have key : handlePayload cfg api f p = .null ↔ p ∉ supportPayloads := by
    unfold handlePayload supportPayloads
    simp only [List.mem_cons, List.mem_singleton, List.not_mem_nil, or_false, not_or]
    constructor
    · intro h
      split_ifs at h with h1 h2 h3 h4 h5 h6 h7
      exact ⟨h1, h2, h3, h4, h5, h6, h7⟩
    · rintro ⟨h1, h2, h3, h4, h5, h6, h7⟩
      simp only [if_neg h1, if_neg h2, if_neg h3, if_neg h4, if_neg h5, if_neg h6, if_neg h7]
  refine ⟨key, ?_⟩
  intro q hq
  simp only [supportPayloads, List.mem_cons, List.mem_singleton, List.not_mem_nil,
    or_false] at hq
  rcases hq with h | h | h | h | h | h | h <;> subst h <;> simp [handlePayload]

/-! ## C12: `safeLocale` -/

/-- C12, evaluated on the code: without a global `client`, `safeLocale` does
for every argument what `i18n.setLocale("en_US")` does.  So for the locale
`de_DE`, which the sample `i18n` accepts, the active locale after
`safeLocale("de_DE")` is `en_US`, and it is `en_US` too at the `triageMessage`
of a first contact whose fetched profile has the locale `de_DE`. -/
theorem safeLocale_ignores_locale (co : Collab) (locale current : JsVal) :
    safeLocale noGlobals co locale = i18nSetLocale co (.str "en_US") ∧
    sampleCollab.accepts (.str "de_DE") = true ∧
    activeLocale current (safeLocale noGlobals sampleCollab (.str "de_DE")).trace
      = .str "en_US" ∧
    firstContactCallbacks noGlobals localeCollab pendingU1
        (.resolved [("locale", .str "de_DE")]) =
      Run.done [.setProfile "U1" (some [("locale", .str "de_DE")]),
                .setLocale (.str "en_US"),
                .triageMessage { psid := "U1", firstName := .undefined, locale := .str "de_DE" }
                  (textEvent "U1" "hi")] := by
  refine ⟨rfl, rfl, ?_, ?_⟩
  · simp [safeLocale, noGlobals, i18nSetLocale, sampleCollab, Run.done, activeLocale]
  · decide

end MessengerBot
